import Mathlib

/-!
Shallow embedding of the memory-server core of the Qdrant_Memory_MCP
repository: the generic memory service (collection and record lifecycle,
content hashing, multi-collection search, legacy compatibility surface),
the MCP server prompt gating, and the collection deletion handler.
External capabilities (the embedding model, the vector-store similarity
score, the uuid5 library function, the wall clock) are parameters of an
environment record, exactly as they are external calls in the source.
-/

namespace QMem

/-- JSON-like values stored in a record payload. -/
inductive Val where
  | str (s : String)
  | num (q : Rat)
  | boolVal (b : Bool)
  | strList (l : List String)
  deriving DecidableEq, Repr

/-- Association-list model of a Python dict: lookup returns the first
binding of the key. -/
abbrev Dict := List (String × Val)

/-- Lookup of a key, mirroring Python dict indexing / dict.get. -/
def dictGet (d : Dict) (k : String) : Option Val :=
  (d.find? (fun p => p.1 == k)).map (fun p => p.2)

/-- Merge of two dicts with the semantics of a Python double-splat literal
or of dict.update: on a key present in both, the second dict wins. -/
def dictMerge (a b : Dict) : Dict :=
  a.filter (fun p => (dictGet b p.1).isNone) ++ b

theorem dictGet_append (a b : Dict) (k : String) :
    dictGet (a ++ b) k =
      match dictGet a k with
      | some v => some v
      | none => dictGet b k := by
  simp only [dictGet, List.find?_append]
  cases h : a.find? (fun p => p.1 == k) <;> simp [h, Option.or]

theorem dictGet_cons_pos {p : String × Val} {d : Dict} {k : String}
    (h : (p.1 == k) = true) : dictGet (p :: d) k = some p.2 := by
  simp [dictGet, h]

theorem dictGet_cons_neg {p : String × Val} {d : Dict} {k : String}
    (h : ¬ ((p.1 == k) = true)) : dictGet (p :: d) k = dictGet d k := by
  simp [dictGet, h]

theorem dictGet_eq_none {d : Dict} {k : String}
    (h : ∀ x ∈ d, ¬ ((x.1 == k) = true)) : dictGet d k = none := by
  unfold dictGet
  rw [List.find?_eq_none.mpr h]
  rfl

theorem dictGet_filtered_of_none {a b : Dict} {k : String}
    (hb : dictGet b k = none) :
    dictGet (a.filter (fun p => (dictGet b p.1).isNone)) k = dictGet a k := by
  induction a with
  | nil => rfl
  | cons p a ih =>
    rw [List.filter_cons]
    by_cases hk : (p.1 == k) = true
    · have hkk : p.1 = k := eq_of_beq hk
      have hq : ((dictGet b p.1).isNone) = true := by
        rw [hkk, hb]; rfl
      rw [if_pos hq, dictGet_cons_pos hk, dictGet_cons_pos hk]
    · by_cases hq : ((dictGet b p.1).isNone) = true
      · rw [if_pos hq, dictGet_cons_neg hk, dictGet_cons_neg hk]
        exact ih
      · rw [if_neg hq, dictGet_cons_neg hk]
        exact ih

theorem dictGet_filtered_of_some {a b : Dict} {k : String} {v : Val}
    (hb : dictGet b k = some v) :
    dictGet (a.filter (fun p => (dictGet b p.1).isNone)) k = none := by
  apply dictGet_eq_none
  intro x hx hpx
  have hk : x.1 = k := eq_of_beq hpx
  have hmem := (List.mem_filter.mp hx).2
  rw [hk, hb] at hmem
  simp at hmem

/-- Lookup in a merged dict: the second dict wins on a shared key,
otherwise the first dict is consulted. -/
theorem dictGet_dictMerge (a b : Dict) (k : String) :
    dictGet (dictMerge a b) k =
      match dictGet b k with
      | some v => some v
      | none => dictGet a k := by
  unfold dictMerge
  rw [dictGet_append]
  cases hb : dictGet b k with
  | none =>
    rw [dictGet_filtered_of_none hb]
    cases dictGet a k <;> simp
  | some v =>
    rw [dictGet_filtered_of_some hb]

/-! ### External capabilities

The embedding model (sentence_transformers), the vector-store similarity
score (Qdrant cosine-like scoring), the uuid5 library function and the
wall clock are all external to the repository; they enter the model as an
environment record, mirroring the narrow contracts of spec section 6. -/

structure Env where
  embed : String → List Rat
  sim : List Rat → List Rat → Rat
  uuid5 : String → String → String
  now : String

/-- One stored record of the vector store: id, embedding vector, payload. -/
structure Point where
  id : String
  vector : List Rat
  payload : Dict
  deriving DecidableEq, Repr

/-- A hit returned by the vector-store search call. -/
structure Hit where
  id : String
  score : Rat
  payload : Dict
  deriving DecidableEq, Repr

/-- The vector store: named collections of points (the Qdrant capability
of spec section 6, modelled as in-memory state). -/
structure VectorStore where
  collections : List (String × List Point)
  deriving DecidableEq, Repr

def VectorStore.getPoints (st : VectorStore) (c : String) :
    Option (List Point) :=
  (st.collections.find? (fun q => q.1 == c)).map (fun q => q.2)

def VectorStore.hasCollection (st : VectorStore) (c : String) : Bool :=
  (st.getPoints c).isSome

def VectorStore.names (st : VectorStore) : List String :=
  st.collections.map (fun q => q.1)

/-- Replace the point list of one named collection. -/
def VectorStore.updateCol (st : VectorStore) (c : String)
    (g : List Point → List Point) : VectorStore :=
  ⟨st.collections.map (fun q => if q.1 == c then (q.1, g q.2) else q)⟩

/-- Upsert of a single point: a point with the same id is replaced in
place, otherwise the point is appended (the Qdrant upsert contract). -/
def upsertPoint (pts : List Point) (p : Point) : List Point :=
  if pts.any (fun q => q.id == p.id) then
    pts.map (fun q => if q.id == p.id then p else q)
  else
    pts ++ [p]

/-- Upsert call of the store; an unknown collection raises, modelled as
an error value that the callers catch. -/
def VectorStore.upsert (st : VectorStore) (c : String) (ps : List Point) :
    Except String VectorStore :=
  match st.getPoints c with
  | none => .error ("Collection not found: " ++ c)
  | some _ => .ok (st.updateCol c (fun pts => ps.foldl upsertPoint pts))

/-- Point lookup by ids (the Qdrant retrieve call). -/
def VectorStore.retrieve (st : VectorStore) (c : String)
    (ids : List String) : Except String (List Point) :=
  match st.getPoints c with
  | none => .error ("Collection not found: " ++ c)
  | some pts => .ok (pts.filter (fun p => ids.contains p.id))

/-- Point deletion by ids (the Qdrant delete call). -/
def VectorStore.deletePoints (st : VectorStore) (c : String)
    (ids : List String) : Except String VectorStore :=
  match st.getPoints c with
  | none => .error ("Collection not found: " ++ c)
  | some _ =>
    .ok (st.updateCol c (fun pts => pts.filter (fun p => !(ids.contains p.id))))

/-! ### Sorting by score, descending

The source sorts result lists with the Python stable sort and key
score, reverse=True; this is modelled with insertion sort under the
relation that compares scores descending. -/

def scoreDescRel {α : Type} (key : α → Rat) : α → α → Prop :=
  fun a b => key b ≤ key a

instance {α : Type} (key : α → Rat) : DecidableRel (scoreDescRel key) :=
  fun a b => inferInstanceAs (Decidable (key b ≤ key a))

instance {α : Type} (key : α → Rat) : IsTotal α (scoreDescRel key) :=
  ⟨fun a b => le_total (key b) (key a)⟩

instance {α : Type} (key : α → Rat) : IsTrans α (scoreDescRel key) :=
  ⟨fun _ _ _ h1 h2 => le_trans h2 h1⟩

def sortDescBy {α : Type} (key : α → Rat) (l : List α) : List α :=
  List.insertionSort (scoreDescRel key) l

theorem sortDescBy_sorted {α : Type} (key : α → Rat) (l : List α) :
    (sortDescBy key l).Sorted (scoreDescRel key) :=
  List.sorted_insertionSort (scoreDescRel key) l

theorem sortDescBy_perm {α : Type} (key : α → Rat) (l : List α) :
    (sortDescBy key l).Perm l :=
  List.perm_insertionSort (scoreDescRel key) l

theorem mem_sortDescBy {α : Type} {key : α → Rat} {l : List α} {x : α} :
    x ∈ sortDescBy key l ↔ x ∈ l :=
  (sortDescBy_perm key l).mem_iff

/-- The vector-store search call: score every point of the collection
against the query vector, keep scores at or above the threshold, return
the best matches in descending score order, at most the limit many.
An unknown collection raises, modelled as an error value. -/
def VectorStore.search (st : VectorStore) (env : Env) (c : String)
    (queryVector : List Rat) (limit : Nat) (scoreThreshold : Rat) :
    Except String (List Hit) :=
  match st.getPoints c with
  | none => .error ("Collection not found: " ++ c)
  | some pts =>
    let scored := pts.map (fun p => Hit.mk p.id (env.sim queryVector p.vector) p.payload)
    let kept := scored.filter (fun h => scoreThreshold ≤ h.score)
    .ok ((sortDescBy (fun h => h.score) kept).take limit)

/-! ### Collection registry

The collection manager (collection_manager.py) is imported by
generic_memory_service.py but is not among the provided source files;
its operations are modelled from the spec, sections 3 and 4.2. -/

structure CollectionPermissions where
  read : List String
  write : List String
  admin : List String
  deriving DecidableEq, Repr

/-- Modelled from the spec: a principal may write records exactly when it
is in the write or admin set of the collection, where the principal
written as star denotes any principal (spec section 3, permission
invariant). The provided sources declare this check as a contract point
but do not implement it. -/
def hasWritePermission (perms : CollectionPermissions) (principal : String) :
    Bool :=
  perms.write.contains principal || perms.admin.contains principal ||
    perms.write.contains "*" || perms.admin.contains "*"

structure CollectionMeta where
  name : String
  description : String
  tags : List String
  category : Option String
  project : Option String
  permissions : CollectionPermissions
  created_by : String
  deriving DecidableEq, Repr

structure ManagerState where
  collections : List CollectionMeta
  deriving DecidableEq, Repr

def managerGetCollection (m : ManagerState) (name : String) :
    Option CollectionMeta :=
  m.collections.find? (fun c => c.name == name)

/-- Generic result shape of the service operations, modelling the Python
result dicts with their success flag, error text and payload. -/
structure Res (α : Type) where
  success : Bool
  error : Option String := none
  data : Option α := none
  deriving DecidableEq, Repr

def notInitRes {α : Type} : Res α :=
  { success := false, error := some "Service not initialized" }

/-- Modelled from the spec: create fails with AlreadyExists when the name
is taken, default permissions are read star, write and admin the creator
(spec section 4.2); collection_manager.py is not among the sources. -/
def managerCreate (m : ManagerState) (store : VectorStore)
    (name description : String) (tags : List String)
    (category project : Option String)
    (permissions : Option CollectionPermissions) (created_by : String) :
    Res String × ManagerState × VectorStore :=
  if m.collections.any (fun c => c.name == name) then
    ({ success := false, error := some ("AlreadyExists: " ++ name) }, m, store)
  else
    let perms := permissions.getD ⟨["*"], [created_by], [created_by]⟩
    let meta : CollectionMeta :=
      ⟨name, description, tags, category, project, perms, created_by⟩
    ({ success := true, data := some name },
     ⟨m.collections ++ [meta]⟩,
     ⟨store.collections ++ [(name, [])]⟩)

/-- Modelled from the spec: list returns the collections matching every
supplied filter, with logical AND across filters and any-of within the
tag list (spec section 4.2); collection_manager.py is not among the
sources. -/
def managerList (m : ManagerState) (filter_by_tags : Option (List String))
    (filter_by_category filter_by_project : Option String)
    (owned_by : Option String) : Res (List CollectionMeta) :=
  { success := true,
    data := some (m.collections.filter (fun c =>
      (match filter_by_tags with
       | none => true
       | some ts => ts.any (fun t => c.tags.contains t)) &&
      (match filter_by_category with
       | none => true
       | some cat => c.category == some cat) &&
      (match filter_by_project with
       | none => true
       | some pr => c.project == some pr) &&
      (match owned_by with
       | none => true
       | some u => c.created_by == u))) }

/-- Modelled from the spec: update merges only the supplied fields and
fails NotFound when the collection is missing (spec section 4.2);
collection_manager.py is not among the sources. -/
def managerUpdate (m : ManagerState) (name : String)
    (description : Option String) (tags : Option (List String))
    (category project : Option String) (updated_by : String) :
    Res String × ManagerState :=
  match managerGetCollection m name with
  | none => ({ success := false, error := some ("NotFound: " ++ name) }, m)
  | some _ =>
    ({ success := true, data := some name },
     ⟨m.collections.map (fun c =>
        if c.name == name then
          { c with
            description := description.getD c.description,
            tags := tags.getD c.tags,
            category := match category with
              | none => c.category
              | some v => some v,
            project := match project with
              | none => c.project
              | some v => some v }
        else c)⟩)

/-- Modelled from the spec: delete fails ConfirmationRequired unless the
confirm flag is set, and otherwise deletes the collection and every
record stored under it (spec section 4.2); collection_manager.py is not
among the sources. -/
def managerDelete (m : ManagerState) (store : VectorStore)
    (name deleted_by : String) (confirm : Bool) :
    Res String × ManagerState × VectorStore :=
  if !confirm then
    ({ success := false,
       error := some ("ConfirmationRequired: deleting " ++ name ++
         " requires confirm=true") }, m, store)
  else
    ({ success := true, data := some name },
     ⟨m.collections.filter (fun c => !(c.name == name))⟩,
     ⟨store.collections.filter (fun q => !(q.1 == name))⟩)

/-! ### Generic memory service state -/

structure ServiceState where
  initialized : Bool
  hasClient : Bool
  hasCollectionManager : Bool
  hasEmbeddingModel : Bool
  current_user : String
  manager : ManagerState
  store : VectorStore
  deriving DecidableEq, Repr

/-- Guard of every public operation: the service counts as initialized
only when the flag is set and the client, the collection manager and the
embedding model are all present. -/
def ensure_initialized (s : ServiceState) : Bool :=
  s.initialized && s.hasClient && s.hasCollectionManager &&
    s.hasEmbeddingModel

def pointsIn (s : ServiceState) (c : String) : List Point :=
  (s.store.getPoints c).getD []

/-- Fixed namespace constant of the content hash, copied from the
source. -/
def NAMESPACE_UUID : String := "12345678-1234-5678-1234-123456789abc"

/-- Deterministic record id: uuid5 of the fixed namespace applied to the
content string alone. -/
def generate_content_hash (env : Env) (content : String) : String :=
  env.uuid5 NAMESPACE_UUID content

/-- Python str.startswith, modelled over the character lists so that it
evaluates by structural recursion. -/
def strStartsWith (s p : String) : Bool :=
  p.data.isPrefixOf s.data

/-- Legacy collection mapping table of the service constructor. -/
def legacy_collections : List (String × String) :=
  [("global", "global_memory"), ("learned", "learned_memory"),
   ("agent", "agent_memory")]

def legacyCollection (t : String) : String :=
  ((legacy_collections.find? (fun p => p.1 == t)).map (fun p => p.2)).getD ""

/-! ### Collection management API of the service -/

/-- Optional permission dict argument of create_collection. -/
structure PermArg where
  read : Option (List String)
  write : Option (List String)
  admin : Option (List String)
  deriving DecidableEq, Repr

def create_collection (s : ServiceState) (name description : String)
    (tags : Option (List String)) (category project : Option String)
    (permissions : Option PermArg) : Res String × ServiceState :=
  if !(ensure_initialized s) then (notInitRes, s) else
  let perm_obj : Option CollectionPermissions :=
    match permissions with
    | none => none
    | some p =>
      some ⟨p.read.getD ["*"], p.write.getD [s.current_user],
            p.admin.getD [s.current_user]⟩
  let (r, m', st') := managerCreate s.manager s.store name description
    (tags.getD []) category project perm_obj s.current_user
  (r, { s with manager := m', store := st' })

def list_collections (s : ServiceState)
    (filter_by_tags : Option (List String))
    (filter_by_category filter_by_project : Option String) :
    Res (List CollectionMeta) × ServiceState :=
  if !(ensure_initialized s) then (notInitRes, s) else
  (managerList s.manager filter_by_tags filter_by_category
    filter_by_project none, s)

def get_collection (s : ServiceState) (name : String) :
    Res CollectionMeta × ServiceState :=
  if !(ensure_initialized s) then (notInitRes, s) else
  match managerGetCollection s.manager name with
  | none =>
    ({ success := false, error := some ("Collection not found: " ++ name) }, s)
  | some c => ({ success := true, data := some c }, s)

def update_collection (s : ServiceState) (name : String)
    (description : Option String) (tags : Option (List String))
    (category project : Option String) : Res String × ServiceState :=
  if !(ensure_initialized s) then (notInitRes, s) else
  let (r, m') := managerUpdate s.manager name description tags category
    project s.current_user
  (r, { s with manager := m' })

def delete_collection (s : ServiceState) (name : String)
    (confirm : Bool := false) : Res String × ServiceState :=
  if !(ensure_initialized s) then (notInitRes, s) else
  let (r, m', st') := managerDelete s.manager s.store name s.current_user
    confirm
  (r, { s with manager := m', store := st' })

/-! ### Memory content API of the service -/

structure AddData where
  memory_id : String
  collection : Option String
  message : String
  deriving DecidableEq, Repr

def add_memory (env : Env) (s : ServiceState) (collection content : String)
    (metadata : Dict) (tags : List String) : Res AddData × ServiceState :=
  if !(ensure_initialized s) then (notInitRes, s) else
  match managerGetCollection s.manager collection with
  | none =>
    ({ success := false,
       error := some ("Collection " ++ collection ++ " not found") }, s)
  | some _ =>
    let embedding := env.embed content
    let full_metadata : Dict :=
      dictMerge
        [("content", .str content), ("collection", .str collection),
         ("added_by", .str s.current_user), ("timestamp", .str env.now),
         ("tags", .strList tags)]
        metadata
    let content_hash := generate_content_hash env content
    let point : Point := ⟨content_hash, embedding, full_metadata⟩
    match s.store.upsert collection [point] with
    | .error e => ({ success := false, error := some e }, s)
    | .ok store' =>
      ({ success := true,
         data := some ⟨content_hash, some collection,
           "Memory added successfully"⟩ },
       { s with store := store' })

structure SearchItem where
  id : String
  score : Rat
  collection : String
  payload : Dict
  deriving DecidableEq, Repr

structure SearchData where
  results : List SearchItem
  query : String
  collections_searched : List String
  total_results : Nat
  deriving DecidableEq, Repr

/-- The per-collection loop body shared by the search paths: a failing
collection contributes nothing to the accumulated results and the loop
continues. -/
def collectSearch {α : Type} (f : String → Except String (List α))
    (names : List String) : List α :=
  names.foldl (fun acc c =>
    match f c with
    | .error _ => acc
    | .ok xs => acc ++ xs) []

/-- One collection of the search_memory loop: skip when the registry does
not know the collection, then search the store; any failure skips the
collection. -/
def searchCollectionFor (env : Env) (s : ServiceState)
    (queryVector : List Rat) (limit : Nat) (min_score : Rat) (c : String) :
    Except String (List SearchItem) :=
  match managerGetCollection s.manager c with
  | none => .error ("Collection not found: " ++ c)
  | some _ =>
    (s.store.search env c queryVector limit min_score).map
      (fun hits => hits.map (fun h => ⟨h.id, h.score, c, h.payload⟩))

def search_memory (env : Env) (s : ServiceState) (query : String)
    (collections : Option (List String)) (limit : Nat) (min_score : Rat) :
    Res SearchData × ServiceState :=
  if !(ensure_initialized s) then (notInitRes, s) else
  let cols := match collections with
    | some cs => cs
    | none =>
      (((managerList s.manager none none none none).data.getD []).map
        (fun c => c.name))
  let queryVector := env.embed query
  let all_results :=
    collectSearch (searchCollectionFor env s queryVector limit min_score) cols
  let final := (sortDescBy (fun r => r.score) all_results).take limit
  ({ success := true,
     data := some ⟨final, query, cols, final.length⟩ }, s)

structure MemoryData where
  id : String
  collection : String
  payload : Dict
  deriving DecidableEq, Repr

def get_memory (s : ServiceState) (memory_id collection : String) :
    Res MemoryData × ServiceState :=
  if !(ensure_initialized s) then (notInitRes, s) else
  match s.store.retrieve collection [memory_id] with
  | .error e => ({ success := false, error := some e }, s)
  | .ok [] => ({ success := false, error := some "Memory not found" }, s)
  | .ok (m :: _) =>
    ({ success := true, data := some ⟨m.id, collection, m.payload⟩ }, s)

def delete_memory (s : ServiceState) (memory_id collection : String) :
    Res String × ServiceState :=
  if !(ensure_initialized s) then (notInitRes, s) else
  match s.store.deletePoints collection [memory_id] with
  | .error e => ({ success := false, error := some e }, s)
  | .ok st' =>
    ({ success := true, data := some "Memory deleted successfully" },
     { s with store := st' })

structure StatsData where
  collection : String
  total_memories : Nat
  metadata : CollectionMeta
  deriving DecidableEq, Repr

/-- Collection statistics; the source additionally aggregates tag counts,
content sizes and contributors over the most recent points, which are
observability summaries of the same stored payloads. -/
def get_collection_stats (s : ServiceState) (collection : String) :
    Res StatsData × ServiceState :=
  if !(ensure_initialized s) then (notInitRes, s) else
  match managerGetCollection s.manager collection with
  | none =>
    ({ success := false,
       error := some ("Collection not found: " ++ collection) }, s)
  | some meta =>
    match s.store.getPoints collection with
    | none =>
      ({ success := false,
         error := some ("Collection not found: " ++ collection) }, s)
    | some pts =>
      ({ success := true, data := some ⟨collection, pts.length, meta⟩ }, s)

/-! ### Legacy compatibility surface -/

/-- Sync add path used by the legacy methods: same content hash, payload
updated with the reserved keys content, timestamp and added_by written
last. -/
def add_memory_sync (env : Env) (s : ServiceState)
    (collection_name content : String) (metadata : Dict) :
    Res String × ServiceState :=
  let embedding := env.embed content
  let memory_id := generate_content_hash env content
  let md := dictMerge metadata
    [("content", .str content), ("timestamp", .str env.now),
     ("added_by", .str s.current_user)]
  let point : Point := ⟨memory_id, embedding, md⟩
  match s.store.upsert collection_name [point] with
  | .error e => ({ success := false, error := some e }, s)
  | .ok st' =>
    ({ success := true, data := some memory_id }, { s with store := st' })

structure SyncItem where
  content : String
  score : Rat
  collection : String
  metadata : Dict
  deriving DecidableEq, Repr

structure SyncData where
  results : List SyncItem
  query : String
  total_results : Nat
  deriving DecidableEq, Repr

/-- Content field of a payload as read by the sync search path; the add
paths always store the content as a string. -/
def payloadContent (d : Dict) : String :=
  match dictGet d "content" with
  | some (.str s) => s
  | _ => ""

def searchSyncFor (env : Env) (s : ServiceState) (queryVector : List Rat)
    (limit : Nat) (min_score : Rat) (c : String) :
    Except String (List SyncItem) :=
  (s.store.search env c queryVector limit min_score).map
    (fun hits => hits.map
      (fun h => ⟨payloadContent h.payload, h.score, c, h.payload⟩))

def search_memory_sync (env : Env) (s : ServiceState)
    (collection_names : List String) (query : String) (limit : Nat)
    (min_score : Rat) : Res SyncData :=
  let queryVector := env.embed query
  let all_results :=
    collectSearch (searchSyncFor env s queryVector limit min_score)
      collection_names
  let sorted := sortDescBy (fun r => r.score) all_results
  { success := true,
    data := some ⟨sorted.take limit, query, all_results.length⟩ }

def add_to_global_memory (env : Env) (s : ServiceState) (content : String)
    (category : String) (importance : Rat) : Res String × ServiceState :=
  if !(ensure_initialized s) then (notInitRes, s) else
  let collection_name := legacyCollection "global"
  let metadata : Dict :=
    [("category", .str category), ("importance", .num importance),
     ("memory_type", .str "global"),
     ("legacy_source", .str "add_to_global_memory")]
  let (r, s') := add_memory_sync env s collection_name content metadata
  if r.success then ({ success := true, data := r.data }, s') else (r, s')

def add_to_learned_memory (env : Env) (s : ServiceState) (content : String)
    (pattern_type : String) (confidence : Rat) : Res String × ServiceState :=
  if !(ensure_initialized s) then (notInitRes, s) else
  let collection_name := legacyCollection "learned"
  let metadata : Dict :=
    [("pattern_type", .str pattern_type), ("confidence", .num confidence),
     ("memory_type", .str "learned"),
     ("legacy_source", .str "add_to_learned_memory")]
  let (r, s') := add_memory_sync env s collection_name content metadata
  if r.success then ({ success := true, data := r.data }, s') else (r, s')

/-- Target collection of add_to_agent_memory, extracted verbatim from its
fallback logic: the per-agent collection when it exists in the store,
otherwise the first store collection whose name carries the agent
naming pattern, otherwise the default agent collection name. -/
def agentCollectionTarget (st : VectorStore) (target_agent_id : String) :
    String :=
  let collection_name := "agent_specific_memory_" ++ target_agent_id
  if st.hasCollection collection_name then collection_name
  else
    let agent_cols :=
      st.names.filter (fun n => strStartsWith n "agent_specific_memory_")
    match agent_cols with
    | [] => "agent_specific_memory_default"
    | c :: _ => c

def add_to_agent_memory (env : Env) (s : ServiceState) (content : String)
    (agent_id : Option String) (memory_type : String) :
    Res String × ServiceState :=
  if !(ensure_initialized s) then (notInitRes, s) else
  let target_agent_id := agent_id.getD "default"
  let collection_name := agentCollectionTarget s.store target_agent_id
  let metadata : Dict :=
    [("agent_id", .str target_agent_id), ("memory_type", .str memory_type),
     ("legacy_source", .str "add_to_agent_memory")]
  let (r, s') := add_memory_sync env s collection_name content metadata
  if r.success then ({ success := true, data := r.data }, s') else (r, s')

def legacyTypeOf (collection_name : String) : String :=
  if collection_name == "global_memory" then "global"
  else if collection_name == "learned_memory" then "learned"
  else if strStartsWith collection_name "agent_specific_memory_" then "agent"
  else "unknown"

structure LegacyItem where
  item : SyncItem
  memory_type : String
  deriving DecidableEq, Repr

def query_memory (env : Env) (s : ServiceState) (query : String)
    (memory_types : Option (List String)) (limit : Nat) (min_score : Rat) :
    Res (List LegacyItem) × ServiceState :=
  if !(ensure_initialized s) then (notInitRes, s) else
  let mts := memory_types.getD ["global", "learned", "agent"]
  let collection_names := mts.foldl (fun acc mt =>
    if mt == "global" then acc ++ ["global_memory"]
    else if mt == "learned" then acc ++ ["learned_memory"]
    else if mt == "agent" then
      acc ++ (s.store.names.filter
        (fun n => strStartsWith n "agent_specific_memory_"))
    else acc) []
  if collection_names.isEmpty then
    ({ success := false,
       error := some "No valid collections found for memory types" }, s)
  else
    let r := search_memory_sync env s collection_names query limit min_score
    match r.data with
    | some d =>
      ({ success := true,
         data := some (d.results.map
           (fun it => ⟨it, legacyTypeOf it.collection⟩)) }, s)
    | none => ({ success := false, error := r.error }, s)

structure PatternItem where
  content : String
  similarity_score : Rat
  pattern_type : Val
  confidence : Val
  timestamp : Option Val
  deriving DecidableEq, Repr

def compare_against_learned_memory (env : Env) (s : ServiceState)
    (situation comparison_type : String) (limit : Nat) :
    Res (List PatternItem) × ServiceState :=
  if !(ensure_initialized s) then (notInitRes, s) else
  let collection_name := "learned_memory"
  let r := search_memory_sync env s [collection_name] situation limit (3/10)
  match r.data with
  | some d =>
    ({ success := true,
       data := some (d.results.map (fun m =>
         ⟨m.content, m.score,
          (dictGet m.metadata "pattern_type").getD (.str "insight"),
          (dictGet m.metadata "confidence").getD (.num (7/10)),
          dictGet m.metadata "timestamp"⟩)) }, s)
  | none => ({ success := false, error := r.error }, s)

/-! ### MCP server prompt gating (mcp_server.py) -/

/-- Outcome of a prompt-get request: either a structured error with a
code, or a prompt result. -/
inductive PromptGetResult where
  | err (code : Int) (message : String)
  | ok (description : String) (text : String)
  deriving DecidableEq, Repr

/-- The prompt-relevant state of MemoryMCPServer: the mode string, the
availability of the memory manager, and the prompt list of the prompt
handlers (prompt_handlers.py is an external component here). -/
structure MCPServer where
  server_mode : String
  memory_available : Bool
  prompt_handlers_present : Bool
  prompt_list : List String
  deriving DecidableEq, Repr

/-- Server construction: prompt handlers are only built in full or
prompts-only mode. -/
def initServer (server_mode : String) (memory_available : Bool)
    (prompt_list : List String) : MCPServer :=
  { server_mode := server_mode,
    memory_available := memory_available,
    prompt_handlers_present :=
      server_mode == "full" || server_mode == "prompts-only",
    prompt_list := prompt_list }

def get_available_prompts (srv : MCPServer) : List String :=
  if srv.server_mode == "tools-only" || !srv.memory_available ||
      !srv.prompt_handlers_present then
    []
  else srv.prompt_list

/-- Prompt-get handler: in tools-only mode (or with no prompt handlers)
it answers the reserved method-not-supported error; otherwise it runs
the prompt handlers, whose behaviour (prompt_handlers.py, not among the
sources) enters as the body argument. -/
def handle_prompt_get (srv : MCPServer) (body : PromptGetResult) :
    PromptGetResult :=
  if srv.server_mode == "tools-only" || !srv.prompt_handlers_present then
    .err (-32601) "Prompts not available in tools-only mode"
  else body

/-! ### Collection deletion tool handler
(system_and_collections_handlers.py) -/

/-- Tool response shape at the handler boundary. -/
structure ToolResponse where
  isError : Bool
  text : String
  deriving DecidableEq, Repr

/-- The delete_collection tool handler: it validates the name and the
confirm flag itself, then invokes the service delete_collection with the
collection name as its only argument, so the service receives its
default confirm value, and the handler reports success without
inspecting the service result. -/
def handle_delete_collection (s : ServiceState)
    (collection_name : Option String) (confirm : Bool) :
    ToolResponse × ServiceState :=
  match collection_name with
  | none => ({ isError := true, text := "Collection name is required" }, s)
  | some name =>
    if !confirm then
      ({ isError := true,
         text := "Confirmation required: set confirm to true to delete the collection" },
       s)
    else
      let (_r, s') := delete_collection s name
      ({ isError := false,
         text := "Successfully deleted collection " ++ name ++
           " and all its contents" }, s')

/-! ### Deduplication policy

The configuration below is translated from server_config.py; the policy
that applies it is modelled from the spec (section 4.3 step 3), since the
provided sources contain only the configuration, not the code path that
enforces it. -/

/-- Deduplication settings of server_config.py with their source
defaults. -/
structure DeduplicationConfig where
  similarity_threshold : Rat := 85/100
  near_miss_threshold : Rat := 80/100
  logging_enabled : Bool := true
  diagnostics_enabled : Bool := true
  deriving DecidableEq, Repr

/-- Classification of a write against its nearest neighbour. -/
inductive DedupDecision where
  | duplicate (matched : Point)
  | nearMiss
  | newRecord
  deriving DecidableEq, Repr

/-- Nearest existing point of a collection under the similarity score. -/
def nearestPoint (env : Env) (pts : List Point) (queryVector : List Rat) :
    Option Point :=
  (sortDescBy (fun p => env.sim queryVector p.vector) pts).head?

/-- Modelled from the spec: the near-duplicate classification of section
4.3 step 3 - at or above the similarity threshold the write is a
duplicate of the matched record, in the band from the near-miss
threshold up to but excluding the similarity threshold it is a near-miss,
and below the near-miss threshold it is a plain new record. The sources
only carry the two thresholds (DeduplicationConfig). -/
def classifyWrite (cfg : DeduplicationConfig) (env : Env)
    (pts : List Point) (queryVector : List Rat) : DedupDecision :=
  match nearestPoint env pts queryVector with
  | none => .newRecord
  | some p =>
    let simScore := env.sim queryVector p.vector
    if cfg.similarity_threshold ≤ simScore then .duplicate p
    else if cfg.near_miss_threshold ≤ simScore then .nearMiss
    else .newRecord

/-- Slot chosen for a classified write: a duplicate reuses the matched
record id, anything else uses the content hash. -/
def dedupSlotId (d : DedupDecision) (fallback : String) : String :=
  match d with
  | .duplicate p => p.id
  | _ => fallback

/-- Modelled from the spec: the add path with the near-duplicate policy
of section 4.3 - a duplicate write is an idempotent upsert over the
matched record slot, a near-miss write proceeds normally and is flagged
for observability, and any other write inserts a plain new record. -/
def add_memory_dedup (cfg : DeduplicationConfig) (env : Env)
    (s : ServiceState) (collection content : String) (metadata : Dict)
    (tags : List String) :
    (Res AddData × ServiceState) × DedupDecision :=
  if !(ensure_initialized s) then ((notInitRes, s), .newRecord) else
  match managerGetCollection s.manager collection with
  | none =>
    (({ success := false,
        error := some ("Collection " ++ collection ++ " not found") }, s),
     .newRecord)
  | some _ =>
    match s.store.getPoints collection with
    | none =>
      (({ success := false,
          error := some ("Collection not found: " ++ collection) }, s),
       .newRecord)
    | some pts =>
      let embedding := env.embed content
      let decision := classifyWrite cfg env pts embedding
      let full_metadata : Dict :=
        dictMerge
          [("content", .str content), ("collection", .str collection),
           ("added_by", .str s.current_user), ("timestamp", .str env.now),
           ("tags", .strList tags)]
          metadata
      let slot_id := dedupSlotId decision (generate_content_hash env content)
      let point : Point := ⟨slot_id, embedding, full_metadata⟩
      (({ success := true,
          data := some ⟨slot_id, some collection,
            "Memory added successfully"⟩ },
        { s with store :=
            s.store.updateCol collection (fun old => upsertPoint old point) }),
       decision)

/-! ### Helper lemmas on the store model -/

theorem findUpdate {cols : List (String × List Point)} {c : String}
    {pts : List Point} (g : List Point → List Point)
    (h : (cols.find? (fun q => q.1 == c)).map (fun q => q.2) = some pts) :
    ((cols.map (fun q => if q.1 == c then (q.1, g q.2) else q)).find?
      (fun q => q.1 == c)).map (fun q => q.2) = some (g pts) := by
  induction cols with
  | nil => simp at h
  | cons q rest ih =>
    rw [List.map_cons]
    by_cases hq : (q.1 == c) = true
    · rw [if_pos hq]
      have hq2 : (((q.1, g q.2) : String × List Point).1 == c) = true := hq
      simp only [List.find?_cons, hq, hq2, Option.map_some'] at h ⊢
      have : q.2 = pts := by simpa using h
      subst this
      rfl
    · rw [if_neg hq]
      have hqf : (q.1 == c) = false := Bool.eq_false_iff.mpr hq
      simp only [List.find?_cons, hqf] at h ⊢
      exact ih h

theorem getPoints_updateCol_self {st : VectorStore} {c : String}
    {pts : List Point} (g : List Point → List Point)
    (h : st.getPoints c = some pts) :
    (st.updateCol c g).getPoints c = some (g pts) :=
  findUpdate g h

theorem names_map_update (cols : List (String × List Point)) (c : String)
    (g : List Point → List Point) :
    (cols.map (fun q => if q.1 == c then (q.1, g q.2) else q)).map
      (fun q => q.1) = cols.map (fun q => q.1) := by
  induction cols with
  | nil => rfl
  | cons q rest ih =>
    by_cases hq : (q.1 == c) = true
    · simp only [List.map_cons, if_pos hq, ih]
    · simp only [List.map_cons, if_neg hq, ih]

theorem names_updateCol (st : VectorStore) (c : String)
    (g : List Point → List Point) :
    (st.updateCol c g).names = st.names :=
  names_map_update st.collections c g

theorem getPoints_isSome_of_mem_names {st : VectorStore} {c : String}
    (h : c ∈ st.names) : (st.getPoints c).isSome := by
  rcases List.mem_map.mp h with ⟨q, hq, hqc⟩
  have : (st.collections.find? (fun q => q.1 == c)).isSome := by
    rw [List.find?_isSome]
    exact ⟨q, hq, by simp [hqc]⟩
  unfold VectorStore.getPoints
  cases hf : st.collections.find? (fun q => q.1 == c) with
  | none => rw [hf] at this; simp at this
  | some w => simp

theorem length_upsertPoint_of_any {pts : List Point} {p : Point}
    (h : pts.any (fun q => q.id == p.id) = true) :
    (upsertPoint pts p).length = pts.length := by
  unfold upsertPoint
  rw [if_pos h]
  exact List.length_map _ _

theorem length_upsertPoint_of_fresh {pts : List Point} {p : Point}
    (h : pts.any (fun q => q.id == p.id) = false) :
    (upsertPoint pts p).length = pts.length + 1 := by
  unfold upsertPoint
  rw [h]
  simp

theorem countP_upsertPoint_replace {pts : List Point} {p : Point}
    (h : pts.any (fun q => q.id == p.id) = true) :
    (upsertPoint pts p).countP (fun q => q.id == p.id) =
      pts.countP (fun q => q.id == p.id) := by
  unfold upsertPoint
  rw [if_pos h]
  clear h
  induction pts with
  | nil => rfl
  | cons q rest ih =>
    by_cases hq : (q.id == p.id) = true
    · rw [List.map_cons, if_pos hq]
      rw [List.countP_cons, List.countP_cons]
      simp only [hq, beq_self_eq_true]
      rw [ih]
    · rw [List.map_cons, if_neg hq]
      rw [List.countP_cons, List.countP_cons]
      rw [ih]

theorem mem_upsertPoint_self (pts : List Point) (p : Point) :
    p ∈ upsertPoint pts p := by
  unfold upsertPoint
  by_cases h : pts.any (fun q => q.id == p.id) = true
  · rw [if_pos h]
    rcases List.any_eq_true.mp h with ⟨q, hq, hqp⟩
    exact List.mem_map.mpr ⟨q, hq, by rw [if_pos hqp]⟩
  · rw [if_neg h]
    exact List.mem_append.mpr (Or.inr (List.mem_singleton.mpr rfl))

theorem upsertPoint_fresh {pts : List Point} {p : Point}
    (h : pts.any (fun q => q.id == p.id) = false) :
    upsertPoint pts p = pts ++ [p] := by
  unfold upsertPoint
  rw [h]
  simp

/-! ### Helper lemmas on the search loop -/

/-- Contribution of one per-collection call to the merged result list: a
failing call contributes nothing. -/
def exceptContribution {α : Type} (r : Except String (List α)) : List α :=
  match r with
  | .error _ => []
  | .ok xs => xs

theorem collectSearch_go {α : Type} (f : String → Except String (List α))
    (names : List String) (acc : List α) :
    names.foldl (fun acc c =>
      match f c with
      | .error _ => acc
      | .ok xs => acc ++ xs) acc =
    acc ++ (names.map (fun c => exceptContribution (f c))).flatten := by
  induction names generalizing acc with
  | nil => simp
  | cons c rest ih =>
    rw [List.foldl_cons, List.map_cons, List.flatten_cons]
    cases hf : f c with
    | error e => rw [ih]; simp [hf, exceptContribution]
    | ok xs => rw [ih]; simp [hf, exceptContribution]

theorem collectSearch_eq_flatten {α : Type}
    (f : String → Except String (List α)) (names : List String) :
    collectSearch f names =
      (names.map (fun c => exceptContribution (f c))).flatten := by
  unfold collectSearch
  rw [collectSearch_go]
  simp

theorem mem_collectSearch {α : Type}
    {f : String → Except String (List α)} {names : List String} {x : α}
    (h : x ∈ collectSearch f names) :
    ∃ c ∈ names, ∃ xs, f c = .ok xs ∧ x ∈ xs := by
  rw [collectSearch_eq_flatten] at h
  rcases List.mem_flatten.mp h with ⟨l, hl, hx⟩
  rcases List.mem_map.mp hl with ⟨c, hc, hcl⟩
  refine ⟨c, hc, ?_⟩
  cases hf : f c with
  | error e =>
    rw [hf] at hcl
    subst hcl
    simp [exceptContribution] at hx
  | ok xs =>
    rw [hf] at hcl
    subst hcl
    exact ⟨xs, rfl, hx⟩

theorem flatten_map_filter {α : Type} (f : String → List α)
    (names : List String) (p : String → Bool)
    (h : ∀ c ∈ names, p c = false → f c = []) :
    (names.map f).flatten = ((names.filter p).map f).flatten := by
  induction names with
  | nil => rfl
  | cons c rest ih =>
    rw [List.map_cons, List.flatten_cons, List.filter_cons]
    by_cases hp : p c = true
    · rw [if_pos hp, List.map_cons, List.flatten_cons]
      rw [ih (fun d hd hpd => h d (List.mem_cons_of_mem c hd) hpd)]
    · have hpc : p c = false := Bool.eq_false_iff.mpr hp
      rw [h c (List.mem_cons_self c rest) hpc]
      rw [if_neg (by simp [hpc])]
      rw [ih (fun d hd hpd => h d (List.mem_cons_of_mem c hd) hpd)]
      simp

/-- Computation lemma: a successful add_memory call, spelled out. -/
theorem add_memory_ok (env : Env) (s : ServiceState) (c content : String)
    (md : Dict) (tags : List String) {meta : CollectionMeta}
    {pts : List Point}
    (hinit : ensure_initialized s = true)
    (hm : managerGetCollection s.manager c = some meta)
    (hpts : s.store.getPoints c = some pts) :
    add_memory env s c content md tags =
      ({ success := true, error := none,
         data := some ⟨generate_content_hash env content, some c,
           "Memory added successfully"⟩ },
       { s with store := s.store.updateCol c (fun old =>
           upsertPoint old ⟨generate_content_hash env content,
             env.embed content,
             dictMerge [("content", .str content), ("collection", .str c),
               ("added_by", .str s.current_user), ("timestamp", .str env.now),
               ("tags", .strList tags)] md⟩) }) := by
  simp only [add_memory, hinit, Bool.not_true, Bool.false_eq_true, if_false,
    hm, VectorStore.upsert, hpts]
  rfl

theorem countP_upsertPoint_eq {pts : List Point} {p : Point} {i : String}
    (hid : p.id = i) (h : pts.any (fun q => q.id == i) = true) :
    (upsertPoint pts p).countP (fun q => q.id == i) =
      pts.countP (fun q => q.id == i) := by
  subst hid
  exact countP_upsertPoint_replace h

theorem length_upsertPoint_eq {pts : List Point} {p : Point} {i : String}
    (hid : p.id = i) (h : pts.any (fun q => q.id == i) = true) :
    (upsertPoint pts p).length = pts.length := by
  subst hid
  exact length_upsertPoint_of_any h

theorem upsertPoint_fresh_eq {pts : List Point} {p : Point} {i : String}
    (hid : p.id = i) (h : pts.any (fun q => q.id == i) = false) :
    upsertPoint pts p = pts ++ [p] := by
  subst hid
  exact upsertPoint_fresh h

/-- Upserting two points carrying the same id into a collection that does
not yet hold that id leaves exactly one record with the id and the second
upsert does not change the record count. -/
theorem upsert_twice_same_id {pts : List Point} {p1 p2 : Point} {i : String}
    (h1 : p1.id = i) (h2 : p2.id = i)
    (hfresh : pts.countP (fun q => q.id == i) = 0) :
    (upsertPoint (upsertPoint pts p1) p2).countP (fun q => q.id == i) = 1 ∧
    (upsertPoint (upsertPoint pts p1) p2).length =
      (upsertPoint pts p1).length := by
  have hfreshAny : pts.any (fun q => q.id == i) = false := by
    rw [List.any_eq_false]
    intro q hq
    exact List.countP_eq_zero.mp hfresh q hq
  have hX : upsertPoint pts p1 = pts ++ [p1] :=
    upsertPoint_fresh_eq h1 hfreshAny
  have hany : (pts ++ [p1]).any (fun q => q.id == i) = true := by
    rw [List.any_append]
    simp [h1]
  constructor
  · rw [hX, countP_upsertPoint_eq h2 hany, List.countP_append, hfresh]
    simp [List.countP_cons, h1]
  · rw [hX, length_upsertPoint_eq h2 hany]

/-! ### Claim theorems and witnesses -/

/-- Shared witness environment: arbitrary concrete external capabilities. -/
def envW : Env :=
  { embed := fun s => [(s.length : Rat)],
    sim := fun a b => if a == b then 1 else 0,
    uuid5 := fun ns content => ns ++ ":" ++ content,
    now := "2026-10-12T00:00:00" }

/-- C1: the record id of add_memory is uuid5 of the fixed namespace
constant applied to the content string alone, hence the same across
calls, collections and callers, and adding the same content twice to the
same collection is an idempotent upsert: the second add changes no
record count and exactly one record carries that id. -/
theorem c1_content_id_idempotent (env : Env) (s : ServiceState)
    (c content : String) (md md' : Dict) (tags tags' : List String)
    (u : String) (meta : CollectionMeta) (pts : List Point)
    (hinit : ensure_initialized s = true)
    (hm : managerGetCollection s.manager c = some meta)
    (hpts : s.store.getPoints c = some pts)
    (hfresh : pts.countP
      (fun q => q.id == generate_content_hash env content) = 0) :
    (add_memory env s c content md tags).1.data =
        some ⟨env.uuid5 NAMESPACE_UUID content, some c,
          "Memory added successfully"⟩ ∧
    (add_memory env { s with current_user := u } c content md tags).1.data =
        (add_memory env s c content md tags).1.data ∧
    (add_memory env ((add_memory env s c content md tags).2) c content
        md' tags').1.data = (add_memory env s c content md tags).1.data ∧
    (pointsIn (add_memory env ((add_memory env s c content md tags).2) c
        content md' tags').2 c).countP
      (fun q => q.id == generate_content_hash env content) = 1 ∧
    (pointsIn (add_memory env ((add_memory env s c content md tags).2) c
        content md' tags').2 c).length =
      (pointsIn (add_memory env s c content md tags).2 c).length := by
  have e1 := add_memory_ok env s c content md tags hinit hm hpts
  have hinit1 : ensure_initialized ((add_memory env s c content md tags).2)
      = true := by rw [e1]; exact hinit
  have hm1 : managerGetCollection
      ((add_memory env s c content md tags).2).manager c = some meta := by
    rw [e1]; exact hm
  have hpts1 : ((add_memory env s c content md tags).2).store.getPoints c =
      some (upsertPoint pts ⟨generate_content_hash env content,
        env.embed content,
        dictMerge [("content", .str content), ("collection", .str c),
          ("added_by", .str s.current_user), ("timestamp", .str env.now),
          ("tags", .strList tags)] md⟩) := by
    rw [e1]
    exact getPoints_updateCol_self _ hpts
  have e2 := add_memory_ok env ((add_memory env s c content md tags).2) c
    content md' tags' hinit1 hm1 hpts1
  have hfreshAny : pts.any
      (fun q => q.id == generate_content_hash env content) = false := by
    rw [List.any_eq_false]
    intro q hq
    exact List.countP_eq_zero.mp hfresh q hq
  have hcons : upsertPoint pts
      ⟨generate_content_hash env content, env.embed content,
        dictMerge [("content", .str content), ("collection", .str c),
          ("added_by", .str s.current_user), ("timestamp", .str env.now),
          ("tags", .strList tags)] md⟩ =
      pts ++ [⟨generate_content_hash env content, env.embed content,
        dictMerge [("content", .str content), ("collection", .str c),
          ("added_by", .str s.current_user), ("timestamp", .str env.now),
          ("tags", .strList tags)] md⟩] :=
    upsertPoint_fresh_eq rfl hfreshAny
  have hinitU : ensure_initialized { s with current_user := u } = true :=
    hinit
  have hmU : managerGetCollection
      ({ s with current_user := u } : ServiceState).manager c = some meta :=
    hm
  have hptsU : ({ s with current_user := u } : ServiceState).store.getPoints
      c = some pts := hpts
  have eU := add_memory_ok env { s with current_user := u } c content md
    tags hinitU hmU hptsU
  have hg2 : ((add_memory env s c content md tags).2.store.updateCol c
      (fun old => upsertPoint old ⟨generate_content_hash env content,
        env.embed content,
        dictMerge [("content", .str content), ("collection", .str c),
          ("added_by", .str (add_memory env s c content md
            tags).2.current_user), ("timestamp", .str env.now),
          ("tags", .strList tags')] md'⟩)).getPoints c =
      some (upsertPoint (upsertPoint pts
        ⟨generate_content_hash env content, env.embed content,
          dictMerge [("content", .str content), ("collection", .str c),
            ("added_by", .str s.current_user), ("timestamp", .str env.now),
            ("tags", .strList tags)] md⟩)
        ⟨generate_content_hash env content, env.embed content,
          dictMerge [("content", .str content), ("collection", .str c),
            ("added_by", .str (add_memory env s c content md
              tags).2.current_user), ("timestamp", .str env.now),
            ("tags", .strList tags')] md'⟩) :=
    getPoints_updateCol_self _ hpts1
  have hsplit : (upsertPoint (upsertPoint pts
        ⟨generate_content_hash env content, env.embed content,
          dictMerge [("content", .str content), ("collection", .str c),
            ("added_by", .str s.current_user), ("timestamp", .str env.now),
            ("tags", .strList tags)] md⟩)
        ⟨generate_content_hash env content, env.embed content,
          dictMerge [("content", .str content), ("collection", .str c),
            ("added_by", .str (add_memory env s c content md
              tags).2.current_user), ("timestamp", .str env.now),
            ("tags", .strList tags')] md'⟩).countP
        (fun q => q.id == generate_content_hash env content) = 1 ∧
      (upsertPoint (upsertPoint pts
        ⟨generate_content_hash env content, env.embed content,
          dictMerge [("content", .str content), ("collection", .str c),
            ("added_by", .str s.current_user), ("timestamp", .str env.now),
            ("tags", .strList tags)] md⟩)
        ⟨generate_content_hash env content, env.embed content,
          dictMerge [("content", .str content), ("collection", .str c),
            ("added_by", .str (add_memory env s c content md
              tags).2.current_user), ("timestamp", .str env.now),
            ("tags", .strList tags')] md'⟩).length =
      (upsertPoint pts
        ⟨generate_content_hash env content, env.embed content,
          dictMerge [("content", .str content), ("collection", .str c),
            ("added_by", .str s.current_user), ("timestamp", .str env.now),
            ("tags", .strList tags)] md⟩).length :=
    upsert_twice_same_id rfl rfl hfresh
  refine ⟨by rw [e1]; rfl, by simp only [eU, e1],
    by simp only [e2]; simp only [e1], ?_, ?_⟩
  · unfold pointsIn
    simp only [e2]
    rw [show ((add_memory env s c content md tags).2.store.updateCol c
      _).getPoints c = _ from hg2]
    rw [Option.getD_some]
    exact hsplit.1
  · unfold pointsIn
    simp only [e2]
    rw [show ((add_memory env s c content md tags).2.store.updateCol c
      _).getPoints c = _ from hg2]
    rw [hpts1]
    rw [Option.getD_some, Option.getD_some]
    exact hsplit.2

/-- Shared witness fixture: one collection named notes owned by alice. -/
def metaW : CollectionMeta :=
  ⟨"notes", "", [], none, none, ⟨["*"], ["alice"], ["alice"]⟩, "alice"⟩

/-- Shared witness fixture: an initialized service holding the empty
notes collection. -/
def sW : ServiceState :=
  { initialized := true, hasClient := true, hasCollectionManager := true,
    hasEmbeddingModel := true, current_user := "alice",
    manager := ⟨[metaW]⟩, store := ⟨[("notes", [])]⟩ }

theorem c1_witness :
    (add_memory envW sW "notes" "buy milk" [] []).1.data =
        some ⟨envW.uuid5 NAMESPACE_UUID "buy milk", some "notes",
          "Memory added successfully"⟩ ∧
    (add_memory envW { sW with current_user := "bob" } "notes" "buy milk"
        [] []).1.data =
      (add_memory envW sW "notes" "buy milk" [] []).1.data ∧
    (add_memory envW ((add_memory envW sW "notes" "buy milk" [] []).2)
        "notes" "buy milk" [("k", Val.str "v")] ["t"]).1.data =
      (add_memory envW sW "notes" "buy milk" [] []).1.data ∧
    (pointsIn (add_memory envW ((add_memory envW sW "notes" "buy milk" []
        []).2) "notes" "buy milk" [("k", Val.str "v")] ["t"]).2
        "notes").countP
      (fun q => q.id == generate_content_hash envW "buy milk") = 1 ∧
    (pointsIn (add_memory envW ((add_memory envW sW "notes" "buy milk" []
        []).2) "notes" "buy milk" [("k", Val.str "v")] ["t"]).2
        "notes").length =
      (pointsIn (add_memory envW sW "notes" "buy milk" [] []).2
        "notes").length :=
  c1_content_id_idempotent envW sW "notes" "buy milk" [] [("k", Val.str "v")]
    [] ["t"] "bob" metaW [] rfl rfl rfl rfl

/-- C3: the permission check declared in the sources as a contract point
is not implemented - the principal bob is in neither the write nor the
admin set of the notes collection, yet add_memory and delete_memory by
bob succeed and mutate the store instead of failing Forbidden. -/
theorem c3_permission_not_enforced :
    hasWritePermission metaW.permissions "bob" = false ∧
    (add_memory envW { sW with current_user := "bob" } "notes" "hello" []
      []).1.success = true ∧
    (pointsIn (add_memory envW { sW with current_user := "bob" } "notes"
      "hello" [] []).2 "notes").length = 1 ∧
    (delete_memory (add_memory envW { sW with current_user := "bob" }
      "notes" "hello" [] []).2
      (generate_content_hash envW "hello") "notes").1.success = true ∧
    (pointsIn (delete_memory (add_memory envW { sW with current_user :=
      "bob" } "notes" "hello" [] []).2
      (generate_content_hash envW "hello") "notes").2 "notes").length = 0 :=
  ⟨rfl, rfl, rfl, rfl, rfl⟩

/-- Computation lemma: a successful sync add call, spelled out. -/
theorem add_memory_sync_ok (env : Env) (s : ServiceState)
    (cn content : String) (md : Dict) {pts : List Point}
    (hpts : s.store.getPoints cn = some pts) :
    add_memory_sync env s cn content md =
      ({ success := true, error := none,
         data := some (generate_content_hash env content) },
       { s with store := s.store.updateCol cn (fun old =>
           upsertPoint old ⟨generate_content_hash env content,
             env.embed content,
             dictMerge md [("content", .str content),
               ("timestamp", .str env.now),
               ("added_by", .str s.current_user)]⟩) }) := by
  simp only [add_memory_sync, VectorStore.upsert, hpts]
  rfl

/-- C8 counterexample: caller metadata is merged after the reserved keys
in add_memory, so a caller key named content overrides the reserved
content value in the stored payload. -/
theorem c8_counterexample_caller_overrides :
    (pointsIn (add_memory envW sW "notes" "real content"
        [("content", Val.str "evil")] []).2 "notes").map
      (fun p => dictGet p.payload "content") = [some (Val.str "evil")] ∧
    Val.str "evil" ≠ Val.str "real content" :=
  ⟨rfl, by decide⟩

/-- C8 as amended: the stored payload of add_memory merges the reserved
keys content, collection, added_by, timestamp and tags with the caller
metadata, but the caller metadata is merged last and overrides the
reserved keys on conflict; the legacy sync add path merges the other way
around - its reserved keys content, timestamp and added_by are written
last and override the caller metadata (and it carries no collection or
tags key of its own). -/
theorem c8_metadata_merge (env : Env) (s : ServiceState)
    (c content : String) (md : Dict) (tags : List String)
    (meta : CollectionMeta) (pts : List Point)
    (hinit : ensure_initialized s = true)
    (hm : managerGetCollection s.manager c = some meta)
    (hpts : s.store.getPoints c = some pts) :
    (∃ p, p ∈ pointsIn (add_memory env s c content md tags).2 c ∧
      p.id = generate_content_hash env content ∧
      ∀ k, dictGet p.payload k =
        match dictGet md k with
        | some v => some v
        | none => dictGet
            [("content", Val.str content), ("collection", Val.str c),
             ("added_by", Val.str s.current_user),
             ("timestamp", Val.str env.now),
             ("tags", Val.strList tags)] k) ∧
    (∃ q, q ∈ pointsIn (add_memory_sync env s c content md).2 c ∧
      q.id = generate_content_hash env content ∧
      ∀ k, dictGet q.payload k =
        match dictGet
            [("content", Val.str content), ("timestamp", Val.str env.now),
             ("added_by", Val.str s.current_user)] k with
        | some v => some v
        | none => dictGet md k) := by
  constructor
  · refine ⟨⟨generate_content_hash env content, env.embed content,
      dictMerge [("content", .str content), ("collection", .str c),
        ("added_by", .str s.current_user), ("timestamp", .str env.now),
        ("tags", .strList tags)] md⟩, ?_, rfl, ?_⟩
    · rw [add_memory_ok env s c content md tags hinit hm hpts]
      unfold pointsIn
      rw [show (s.store.updateCol c _).getPoints c = _ from
        getPoints_updateCol_self _ hpts]
      rw [Option.getD_some]
      exact mem_upsertPoint_self _ _
    · intro k
      exact dictGet_dictMerge _ md k
  · refine ⟨⟨generate_content_hash env content, env.embed content,
      dictMerge md [("content", .str content), ("timestamp", .str env.now),
        ("added_by", .str s.current_user)]⟩, ?_, rfl, ?_⟩
    · rw [add_memory_sync_ok env s c content md hpts]
      unfold pointsIn
      rw [show (s.store.updateCol c _).getPoints c = _ from
        getPoints_updateCol_self _ hpts]
      rw [Option.getD_some]
      exact mem_upsertPoint_self _ _
    · intro k
      exact dictGet_dictMerge md _ k

theorem c8_witness :
    (∃ p, p ∈ pointsIn (add_memory envW sW "notes" "note text"
        [("src", Val.str "cli")] []).2 "notes" ∧
      p.id = generate_content_hash envW "note text" ∧
      ∀ k, dictGet p.payload k =
        match dictGet [("src", Val.str "cli")] k with
        | some v => some v
        | none => dictGet
            [("content", Val.str "note text"), ("collection", Val.str "notes"),
             ("added_by", Val.str sW.current_user),
             ("timestamp", Val.str envW.now),
             ("tags", Val.strList [])] k) ∧
    (∃ q, q ∈ pointsIn (add_memory_sync envW sW "notes" "note text"
        [("src", Val.str "cli")]).2 "notes" ∧
      q.id = generate_content_hash envW "note text" ∧
      ∀ k, dictGet q.payload k =
        match dictGet
            [("content", Val.str "note text"), ("timestamp", Val.str envW.now),
             ("added_by", Val.str sW.current_user)] k with
        | some v => some v
        | none => dictGet [("src", Val.str "cli")] k) :=
  c8_metadata_merge envW sW "notes" "note text" [("src", Val.str "cli")] []
    metaW [] rfl rfl rfl

/-- C9: in tools-only mode every prompt-related request is disabled -
the prompt list is empty and a prompt-get request answers the structured
error -32601 whatever the prompt handlers would have produced. -/
theorem c9_tools_only_disables_prompts (mem : Bool) (plist : List String)
    (body : PromptGetResult) :
    get_available_prompts (initServer "tools-only" mem plist) = [] ∧
    handle_prompt_get (initServer "tools-only" mem plist) body =
      .err (-32601) "Prompts not available in tools-only mode" := by
  constructor
  · simp [get_available_prompts, initServer]
  · simp [handle_prompt_get, initServer]

/-- C10: with the service not initialized (flag unset, or client,
collection manager or embedding model absent), every public operation
returns the not-initialized error and leaves the state untouched. -/
theorem c10_not_initialized_guard (env : Env) (s : ServiceState)
    (name description content query situation memory_id collection : String)
    (cat mt pt : String) (md : Dict) (tags : List String)
    (tagsO : Option (List String)) (catO projO descO : Option String)
    (perm : Option PermArg) (cols : Option (List String)) (limit : Nat)
    (min_score imp conf : Rat) (mts : Option (List String))
    (agent : Option String) (confirm : Bool)
    (h : ensure_initialized s = false) :
    create_collection s name description tagsO catO projO perm
      = (notInitRes, s) ∧
    list_collections s tagsO catO projO = (notInitRes, s) ∧
    get_collection s name = (notInitRes, s) ∧
    update_collection s name descO tagsO catO projO = (notInitRes, s) ∧
    delete_collection s name confirm = (notInitRes, s) ∧
    add_memory env s collection content md tags = (notInitRes, s) ∧
    search_memory env s query cols limit min_score = (notInitRes, s) ∧
    get_memory s memory_id collection = (notInitRes, s) ∧
    delete_memory s memory_id collection = (notInitRes, s) ∧
    get_collection_stats s collection = (notInitRes, s) ∧
    add_to_global_memory env s content cat imp = (notInitRes, s) ∧
    add_to_learned_memory env s content pt conf = (notInitRes, s) ∧
    add_to_agent_memory env s content agent mt = (notInitRes, s) ∧
    query_memory env s query mts limit min_score = (notInitRes, s) ∧
    compare_against_learned_memory env s situation cat limit
      = (notInitRes, s) := by
  simp only [create_collection, list_collections, get_collection,
    update_collection, delete_collection, add_memory, search_memory,
    get_memory, delete_memory, get_collection_stats, add_to_global_memory,
    add_to_learned_memory, add_to_agent_memory, query_memory,
    compare_against_learned_memory, h, Bool.not_false, if_true]
  simp

/-- Uninitialized witness state: the flag is set but the embedding model
is absent, so the guard fails. -/
def sUninit : ServiceState := { sW with hasEmbeddingModel := false }

theorem c10_witness :
    create_collection sUninit "n" "" none none none none
      = (notInitRes, sUninit) ∧
    list_collections sUninit none none none = (notInitRes, sUninit) ∧
    get_collection sUninit "n" = (notInitRes, sUninit) ∧
    update_collection sUninit "n" none none none none
      = (notInitRes, sUninit) ∧
    delete_collection sUninit "n" true = (notInitRes, sUninit) ∧
    add_memory envW sUninit "notes" "c" [] [] = (notInitRes, sUninit) ∧
    search_memory envW sUninit "q" none 10 (3/10)
      = (notInitRes, sUninit) ∧
    get_memory sUninit "id" "notes" = (notInitRes, sUninit) ∧
    delete_memory sUninit "id" "notes" = (notInitRes, sUninit) ∧
    get_collection_stats sUninit "notes" = (notInitRes, sUninit) ∧
    add_to_global_memory envW sUninit "c" "general" (1/2)
      = (notInitRes, sUninit) ∧
    add_to_learned_memory envW sUninit "c" "insight" (7/10)
      = (notInitRes, sUninit) ∧
    add_to_agent_memory envW sUninit "c" none "general"
      = (notInitRes, sUninit) ∧
    query_memory envW sUninit "q" none 10 (3/10)
      = (notInitRes, sUninit) ∧
    compare_against_learned_memory envW sUninit "sit" "similarity" 5
      = (notInitRes, sUninit) :=
  c10_not_initialized_guard envW sUninit "n" "" "c" "q" "sit" "id" "notes"
    "general" "general" "insight" [] [] none none none none none none 10
    (3/10) (1/2) (7/10) none none true rfl

/-- Witness point and state for the deletion handler claim: the notes
collection holds one record. -/
def pW : Point := ⟨"id1", [1], [("content", Val.str "x")]⟩

def sDel : ServiceState := { sW with store := ⟨[("notes", [pW])]⟩ }

/-- C7: without confirm the handler refuses with the confirmation error
and mutates nothing - that half of the claim holds; but with confirm set
the handler reports success while the collection and its record survive,
because the handler invokes the service delete_collection without
forwarding the confirm flag, and the service-level delete then refuses
with ConfirmationRequired. -/
theorem c7_delete_confirm_not_forwarded :
    handle_delete_collection sDel (some "notes") false =
      ({ isError := true,
         text := "Confirmation required: set confirm to true to delete the collection" },
       sDel) ∧
    (handle_delete_collection sDel (some "notes") true).1.isError = false ∧
    (handle_delete_collection sDel (some "notes") true).2.store.getPoints
      "notes" = some [pW] ∧
    managerGetCollection
      (handle_delete_collection sDel (some "notes") true).2.manager "notes"
      = some metaW ∧
    (delete_collection sDel "notes").1.success = false ∧
    (delete_collection sDel "notes").1.error =
      some "ConfirmationRequired: deleting notes requires confirm=true" :=
  ⟨rfl, rfl, rfl, rfl, rfl, rfl⟩

/-- C6: add_to_agent_memory resolves its target collection by the exact
fallback chain - the per-agent collection when it exists; otherwise the
first existing collection whose name starts with the agent naming
pattern, into which the write then goes without creating any new
collection; otherwise the default agent collection name. -/
theorem c6_agent_fallback_chain (env : Env) (s : ServiceState)
    (content : String) (agent_id : Option String) (mt : String)
    (hinit : ensure_initialized s = true) :
    (s.store.hasCollection
        ("agent_specific_memory_" ++ agent_id.getD "default") = true →
      agentCollectionTarget s.store (agent_id.getD "default") =
        "agent_specific_memory_" ++ agent_id.getD "default") ∧
    (∀ c cs,
      s.store.hasCollection
        ("agent_specific_memory_" ++ agent_id.getD "default") = false →
      s.store.names.filter (fun n => strStartsWith n "agent_specific_memory_")
        = c :: cs →
      agentCollectionTarget s.store (agent_id.getD "default") = c ∧
      (add_to_agent_memory env s content agent_id mt).1.success = true ∧
      (add_to_agent_memory env s content agent_id mt).2.store.names =
        s.store.names ∧
      ∃ p, p ∈ pointsIn (add_to_agent_memory env s content agent_id mt).2
          c ∧ p.id = generate_content_hash env content) ∧
    (s.store.hasCollection
        ("agent_specific_memory_" ++ agent_id.getD "default") = false →
      s.store.names.filter (fun n => strStartsWith n "agent_specific_memory_")
        = [] →
      agentCollectionTarget s.store (agent_id.getD "default") =
        "agent_specific_memory_default") := by
  refine ⟨?_, ?_, ?_⟩
  · intro hyes
    simp [agentCollectionTarget, hyes]
  · intro c cs hno hfil
    have htarget : agentCollectionTarget s.store (agent_id.getD "default")
        = c := by
      simp [agentCollectionTarget, hno, hfil]
    have hcmem : c ∈ s.store.names :=
      List.mem_of_mem_filter (hfil ▸ List.mem_cons_self c cs)
    have hsome := getPoints_isSome_of_mem_names hcmem
    cases hpts : s.store.getPoints c with
    | none => rw [hpts] at hsome; simp at hsome
    | some pts =>
      have hsync := add_memory_sync_ok env s c content
        [("agent_id", Val.str (agent_id.getD "default")),
         ("memory_type", Val.str mt),
         ("legacy_source", Val.str "add_to_agent_memory")] hpts
      have heq : add_to_agent_memory env s content agent_id mt =
          ({ success := true, error := none,
             data := some (generate_content_hash env content) },
           { s with store := s.store.updateCol c (fun old =>
               upsertPoint old ⟨generate_content_hash env content,
                 env.embed content,
                 dictMerge
                   [("agent_id", Val.str (agent_id.getD "default")),
                    ("memory_type", Val.str mt),
                    ("legacy_source", Val.str "add_to_agent_memory")]
                   [("content", .str content), ("timestamp", .str env.now),
                    ("added_by", .str s.current_user)]⟩) }) := by
        simp only [add_to_agent_memory, hinit, Bool.not_true,
          Bool.false_eq_true, if_false, htarget, hsync]
        rfl
      refine ⟨htarget, by rw [heq], ?_, ?_⟩
      · rw [heq]
        exact names_updateCol s.store c _
      · refine ⟨⟨generate_content_hash env content, env.embed content,
          dictMerge
            [("agent_id", Val.str (agent_id.getD "default")),
             ("memory_type", Val.str mt),
             ("legacy_source", Val.str "add_to_agent_memory")]
            [("content", .str content), ("timestamp", .str env.now),
             ("added_by", .str s.current_user)]⟩, ?_, rfl⟩
        rw [heq]
        unfold pointsIn
        rw [show (s.store.updateCol c _).getPoints c = _ from
          getPoints_updateCol_self _ hpts]
        rw [Option.getD_some]
        exact mem_upsertPoint_self _ _
  · intro hno hfil
    simp [agentCollectionTarget, hno, hfil]

/-- Witness state for the agent fallback: no collection for agent 42,
but a pre-existing collection for agent 7. -/
def sAgent : ServiceState :=
  { sW with store := ⟨[("agent_specific_memory_7", [])]⟩ }

/-- Every hit returned by the store search call scores at or above the
threshold it was given. -/
theorem store_search_ok_scores {st : VectorStore} {env : Env} {c : String}
    {qv : List Rat} {limit : Nat} {ms : Rat} {hits : List Hit}
    (h : st.search env c qv limit ms = .ok hits) :
    ∀ x ∈ hits, ms ≤ x.score := by
  unfold VectorStore.search at h
  cases hg : st.getPoints c with
  | none => rw [hg] at h; simp at h
  | some pts =>
    rw [hg] at h
    have heq := Except.ok.inj h
    intro x hx
    rw [← heq] at hx
    have hx2 := List.take_subset _ _ hx
    have hx3 := mem_sortDescBy.mp hx2
    have := (List.mem_filter.mp hx3).2
    simpa using this

/-- Every item produced by the per-collection search branch scores at or
above min_score and is tagged with its collection. -/
theorem searchCollectionFor_ok {env : Env} {s : ServiceState}
    {qv : List Rat} {limit : Nat} {ms : Rat} {c : String}
    {xs : List SearchItem}
    (h : searchCollectionFor env s qv limit ms c = .ok xs) :
    ∀ x ∈ xs, ms ≤ x.score ∧ x.collection = c := by
  unfold searchCollectionFor at h
  cases hm : managerGetCollection s.manager c with
  | none => rw [hm] at h; simp at h
  | some meta =>
    rw [hm] at h
    cases hs : s.store.search env c qv limit ms with
    | error e => rw [hs] at h; simp [Except.map] at h
    | ok hits =>
      rw [hs] at h
      simp only [Except.map] at h
      have heq := Except.ok.inj h
      intro x hx
      rw [← heq] at hx
      rcases List.mem_map.mp hx with ⟨hh, hhmem, rfl⟩
      exact ⟨store_search_ok_scores hs hh hhmem, rfl⟩

/-- C4: a multi-collection search leaves the state unchanged and returns
the per-collection results merged, sorted by score descending and
truncated to the limit; every returned item scores at least min_score
and names one of the searched collections. -/
theorem c4_search_merge_sorted_truncated (env : Env) (s : ServiceState)
    (query : String) (cols : List String) (limit : Nat) (min_score : Rat)
    (hinit : ensure_initialized s = true) :
    (search_memory env s query (some cols) limit min_score).2 = s ∧
    (search_memory env s query (some cols) limit min_score).1.success
      = true ∧
    ∃ d, (search_memory env s query (some cols) limit min_score).1.data
        = some d ∧
      d.results = (sortDescBy (fun r => r.score)
        ((cols.map (fun c => exceptContribution
          (searchCollectionFor env s (env.embed query) limit
            min_score c))).flatten)).take limit ∧
      d.results.Sorted (fun a b => b.score ≤ a.score) ∧
      d.results.length ≤ limit ∧
      (∀ r ∈ d.results, min_score ≤ r.score ∧ r.collection ∈ cols) ∧
      d.collections_searched = cols ∧
      d.total_results = d.results.length := by
  have hrun : search_memory env s query (some cols) limit min_score =
      ({ success := true, error := none,
         data := some ⟨(sortDescBy (fun r : SearchItem => r.score)
             (collectSearch (searchCollectionFor env s (env.embed query)
               limit min_score) cols)).take limit, query, cols,
           ((sortDescBy (fun r : SearchItem => r.score)
             (collectSearch (searchCollectionFor env s (env.embed query)
               limit min_score) cols)).take limit).length⟩ }, s) := by
    simp only [search_memory, hinit, Bool.not_true, Bool.false_eq_true,
      if_false]
  refine ⟨by rw [hrun], by rw [hrun], ?_⟩
  refine ⟨_, by rw [hrun], ?_, ?_, ?_, ?_, rfl, rfl⟩
  · show (sortDescBy (fun r : SearchItem => r.score)
        (collectSearch _ cols)).take limit = _
    rw [collectSearch_eq_flatten]
  · exact List.Pairwise.sublist (List.take_sublist _ _)
      (sortDescBy_sorted _ _)
  · exact List.length_take_le _ _
  · intro r hr
    have hr2 := List.take_subset _ _ hr
    have hr3 := mem_sortDescBy.mp hr2
    rcases mem_collectSearch hr3 with ⟨c, hc, xs, hfc, hrxs⟩
    rcases searchCollectionFor_ok hfc r hrxs with ⟨hsc, hcol⟩
    exact ⟨hsc, by rw [hcol]; exact hc⟩

theorem c4_witness :
    (search_memory envW sW "q" (some ["notes", "ghost"]) 5 (3/10)).2
      = sW ∧
    (search_memory envW sW "q" (some ["notes", "ghost"]) 5
      (3/10)).1.success = true ∧
    ∃ d, (search_memory envW sW "q" (some ["notes", "ghost"]) 5
        (3/10)).1.data = some d ∧
      d.results = (sortDescBy (fun r => r.score)
        ((["notes", "ghost"].map (fun c => exceptContribution
          (searchCollectionFor envW sW (envW.embed "q") 5
            (3/10) c))).flatten)).take 5 ∧
      d.results.Sorted (fun a b => b.score ≤ a.score) ∧
      d.results.length ≤ 5 ∧
      (∀ r ∈ d.results, (3/10 : Rat) ≤ r.score ∧
        r.collection ∈ ["notes", "ghost"]) ∧
      d.collections_searched = ["notes", "ghost"] ∧
      d.total_results = d.results.length :=
  c4_search_merge_sorted_truncated envW sW "q" ["notes", "ghost"] 5
    (3/10) rfl

/-- C5: when the per-collection search of one collection fails, the
overall search still succeeds and its results are those of searching the
remaining collections - the failing collection is skipped, not fatal. -/
theorem c5_partial_failure_skips (env : Env) (s : ServiceState)
    (query : String) (cols : List String) (limit : Nat) (min_score : Rat)
    (c e : String)
    (hinit : ensure_initialized s = true)
    (hc : c ∈ cols)
    (hfail : searchCollectionFor env s (env.embed query) limit min_score c
      = .error e) :
    (search_memory env s query (some cols) limit min_score).1.success
      = true ∧
    ∀ d d',
      (search_memory env s query (some cols) limit min_score).1.data
        = some d →
      (search_memory env s query (some (cols.filter (fun x => !(x == c))))
        limit min_score).1.data = some d' →
      d.results = d'.results := by
  constructor
  · simp only [search_memory, hinit, Bool.not_true, Bool.false_eq_true,
      if_false]
  · intro d d' hd hd'
    simp only [search_memory, hinit, Bool.not_true, Bool.false_eq_true,
      if_false, Option.some.injEq] at hd hd'
    rw [← hd, ← hd']
    show (sortDescBy (fun r : SearchItem => r.score)
        (collectSearch _ cols)).take limit
      = (sortDescBy (fun r : SearchItem => r.score)
          (collectSearch _ (cols.filter (fun x => !(x == c))))).take limit
    rw [collectSearch_eq_flatten, collectSearch_eq_flatten]
    rw [flatten_map_filter _ cols (fun x => !(x == c))]
    intro x hx hpx
    have hxc : x = c := by
      have hb : (x == c) = true := by
        cases hxx : (x == c) with
        | true => rfl
        | false => rw [hxx] at hpx; simp at hpx
      exact eq_of_beq hb
    subst hxc
    rw [hfail]
    rfl

/-- Witness registry entry with no matching store collection: searching
it raises and is skipped. -/
def metaG : CollectionMeta :=
  ⟨"ghost", "", [], none, none, ⟨["*"], ["alice"], ["alice"]⟩, "alice"⟩

def s5 : ServiceState := { sW with manager := ⟨[metaW, metaG]⟩ }

theorem c5_witness :
    (search_memory envW s5 "q" (some ["notes", "ghost"]) 10
      (3/10)).1.success = true ∧
    ∀ d d',
      (search_memory envW s5 "q" (some ["notes", "ghost"]) 10
        (3/10)).1.data = some d →
      (search_memory envW s5 "q"
        (some (["notes", "ghost"].filter (fun x => !(x == "ghost")))) 10
        (3/10)).1.data = some d' →
      d.results = d'.results :=
  c5_partial_failure_skips envW s5 "q" ["notes", "ghost"] 10 (3/10)
    "ghost" "Collection not found: ghost" rfl (by decide) rfl

set_option maxRecDepth 8000 in
theorem c6_witness :
    agentCollectionTarget sAgent.store "42" = "agent_specific_memory_7" ∧
    (add_to_agent_memory envW sAgent "hello" (some "42")
      "general").1.success = true ∧
    (add_to_agent_memory envW sAgent "hello" (some "42")
      "general").2.store.names = sAgent.store.names ∧
    ∃ p, p ∈ pointsIn (add_to_agent_memory envW sAgent "hello" (some "42")
        "general").2 "agent_specific_memory_7" ∧
      p.id = generate_content_hash envW "hello" :=
  (c6_agent_fallback_chain envW sAgent "hello" (some "42") "general"
    rfl).2.1 "agent_specific_memory_7" [] (by decide) (by decide)

/-- Computation lemma: a dedup-policy add on an existing collection,
spelled out. -/
theorem add_memory_dedup_run (cfg : DeduplicationConfig) (env : Env)
    (s : ServiceState) (c content : String) (md : Dict)
    (tags : List String) {meta : CollectionMeta} {pts : List Point}
    (hinit : ensure_initialized s = true)
    (hm : managerGetCollection s.manager c = some meta)
    (hpts : s.store.getPoints c = some pts) :
    add_memory_dedup cfg env s c content md tags =
      (({ success := true, error := none,
          data := some ⟨dedupSlotId
              (classifyWrite cfg env pts (env.embed content))
              (generate_content_hash env content), some c,
            "Memory added successfully"⟩ },
        { s with store := s.store.updateCol c (fun old =>
            upsertPoint old ⟨dedupSlotId
              (classifyWrite cfg env pts (env.embed content))
              (generate_content_hash env content),
              env.embed content,
              dictMerge [("content", .str content), ("collection", .str c),
                ("added_by", .str s.current_user),
                ("timestamp", .str env.now),
                ("tags", .strList tags)] md⟩) }),
       classifyWrite cfg env pts (env.embed content)) := by
  simp only [add_memory_dedup, hinit, Bool.not_true, Bool.false_eq_true,
    if_false, hm, hpts]

/-- C2: the near-duplicate policy classifies a write by its nearest
existing neighbour - at or beyond the similarity threshold (default
0.85) it is a duplicate, handled as an idempotent upsert over the
matched record slot; in the band from the near-miss threshold (default
0.80) up to but excluding the similarity threshold it is flagged as a
near-miss and the write proceeds normally; below the near-miss threshold
it is a plain new record. -/
theorem c2_near_duplicate_policy (cfg : DeduplicationConfig) (env : Env)
    (s : ServiceState) (c content : String) (md : Dict)
    (tags : List String) (meta : CollectionMeta) (pts : List Point)
    (p : Point)
    (hord : cfg.near_miss_threshold ≤ cfg.similarity_threshold)
    (hinit : ensure_initialized s = true)
    (hm : managerGetCollection s.manager c = some meta)
    (hpts : s.store.getPoints c = some pts)
    (hnear : nearestPoint env pts (env.embed content) = some p) :
    ({} : DeduplicationConfig).similarity_threshold = 85/100 ∧
    ({} : DeduplicationConfig).near_miss_threshold = 80/100 ∧
    (cfg.similarity_threshold ≤ env.sim (env.embed content) p.vector →
      classifyWrite cfg env pts (env.embed content) = .duplicate p ∧
      (add_memory_dedup cfg env s c content md tags).1.1.data.map
        (fun d => d.memory_id) = some p.id ∧
      (pointsIn (add_memory_dedup cfg env s c content md tags).1.2
        c).length = pts.length) ∧
    (cfg.near_miss_threshold ≤ env.sim (env.embed content) p.vector →
      env.sim (env.embed content) p.vector < cfg.similarity_threshold →
      classifyWrite cfg env pts (env.embed content) = .nearMiss ∧
      (add_memory_dedup cfg env s c content md tags).2 = .nearMiss ∧
      (add_memory_dedup cfg env s c content md tags).1.1.data.map
        (fun d => d.memory_id) =
          some (generate_content_hash env content) ∧
      ∃ q, q ∈ pointsIn (add_memory_dedup cfg env s c content md
          tags).1.2 c ∧ q.id = generate_content_hash env content) ∧
    (env.sim (env.embed content) p.vector < cfg.near_miss_threshold →
      classifyWrite cfg env pts (env.embed content) = .newRecord ∧
      (add_memory_dedup cfg env s c content md tags).1.1.data.map
        (fun d => d.memory_id) =
          some (generate_content_hash env content)) := by
  have hrun := add_memory_dedup_run cfg env s c content md tags hinit hm
    hpts
  have hpmem : p ∈ pts := by
    unfold nearestPoint at hnear
    cases hs : sortDescBy (fun q => env.sim (env.embed content) q.vector)
        pts with
    | nil => rw [hs] at hnear; simp at hnear
    | cons a t =>
      rw [hs] at hnear
      have hap : a = p := by simpa using hnear
      subst hap
      exact mem_sortDescBy.mp (hs ▸ List.mem_cons_self a t)
  refine ⟨rfl, rfl, ?_, ?_, ?_⟩
  · intro hge
    have hcls : classifyWrite cfg env pts (env.embed content)
        = .duplicate p := by
      simp only [classifyWrite, hnear]
      rw [if_pos hge]
    refine ⟨hcls, ?_, ?_⟩
    · simp only [hrun, hcls, dedupSlotId, Option.map_some']
    · have hany : pts.any (fun q => q.id == p.id) = true :=
        List.any_eq_true.mpr ⟨p, hpmem, by simp⟩
      simp only [hrun, hcls, dedupSlotId]
      unfold pointsIn
      rw [show (s.store.updateCol c _).getPoints c = _ from
        getPoints_updateCol_self _ hpts]
      rw [Option.getD_some]
      exact length_upsertPoint_eq rfl hany
  · intro hge hlt
    have hcls : classifyWrite cfg env pts (env.embed content)
        = .nearMiss := by
      simp only [classifyWrite, hnear]
      rw [if_neg (not_le.mpr hlt), if_pos hge]
    refine ⟨hcls, by simp only [hrun, hcls], ?_, ?_⟩
    · simp only [hrun, hcls, dedupSlotId, Option.map_some']
    · refine ⟨⟨generate_content_hash env content, env.embed content,
        dictMerge [("content", .str content), ("collection", .str c),
          ("added_by", .str s.current_user), ("timestamp", .str env.now),
          ("tags", .strList tags)] md⟩, ?_, rfl⟩
      simp only [hrun, hcls, dedupSlotId]
      unfold pointsIn
      rw [show (s.store.updateCol c _).getPoints c = _ from
        getPoints_updateCol_self _ hpts]
      rw [Option.getD_some]
      exact mem_upsertPoint_self _ _
  · intro hlt
    have hcls : classifyWrite cfg env pts (env.embed content)
        = .newRecord := by
      simp only [classifyWrite, hnear]
      have hlt2 : env.sim (env.embed content) p.vector <
          cfg.similarity_threshold := lt_of_lt_of_le hlt hord
      rw [if_neg (not_le.mpr hlt2), if_neg (not_le.mpr hlt)]
    exact ⟨hcls, by simp only [hrun, hcls, dedupSlotId, Option.map_some']⟩

/-- Witness environment whose similarity score is constantly 0.85 - the
write lands exactly on the similarity threshold boundary. -/
def envDup : Env :=
  { embed := fun s => [(s.length : Rat)],
    sim := fun _ _ => 85/100,
    uuid5 := fun ns content => ns ++ ":" ++ content,
    now := "t" }

def pDup : Point := ⟨"old-id", [1], []⟩

def sDup : ServiceState := { sW with store := ⟨[("notes", [pDup])]⟩ }

theorem c2_witness :
    ({} : DeduplicationConfig).similarity_threshold = 85/100 ∧
    ({} : DeduplicationConfig).near_miss_threshold = 80/100 ∧
    (({} : DeduplicationConfig).similarity_threshold ≤
        envDup.sim (envDup.embed "x") pDup.vector →
      classifyWrite {} envDup [pDup] (envDup.embed "x")
        = .duplicate pDup ∧
      (add_memory_dedup {} envDup sDup "notes" "x" [] []).1.1.data.map
        (fun d => d.memory_id) = some pDup.id ∧
      (pointsIn (add_memory_dedup {} envDup sDup "notes" "x" [] []).1.2
        "notes").length = [pDup].length) ∧
    (({} : DeduplicationConfig).near_miss_threshold ≤
        envDup.sim (envDup.embed "x") pDup.vector →
      envDup.sim (envDup.embed "x") pDup.vector <
        ({} : DeduplicationConfig).similarity_threshold →
      classifyWrite {} envDup [pDup] (envDup.embed "x") = .nearMiss ∧
      (add_memory_dedup {} envDup sDup "notes" "x" [] []).2 = .nearMiss ∧
      (add_memory_dedup {} envDup sDup "notes" "x" [] []).1.1.data.map
        (fun d => d.memory_id) =
          some (generate_content_hash envDup "x") ∧
      ∃ q, q ∈ pointsIn (add_memory_dedup {} envDup sDup "notes" "x" []
          []).1.2 "notes" ∧ q.id = generate_content_hash envDup "x") ∧
    (envDup.sim (envDup.embed "x") pDup.vector <
        ({} : DeduplicationConfig).near_miss_threshold →
      classifyWrite {} envDup [pDup] (envDup.embed "x") = .newRecord ∧
      (add_memory_dedup {} envDup sDup "notes" "x" [] []).1.1.data.map
        (fun d => d.memory_id) =
          some (generate_content_hash envDup "x")) :=
  c2_near_duplicate_policy {} envDup sDup "notes" "x" [] [] metaW [pDup]
    pDup (by norm_num : (80/100 : Rat) ≤ 85/100) rfl rfl rfl rfl

end QMem
